import Mathlib

/-!
Verification of the cutting-to-manufacturing workflow of the
WESTO-INDIA/Inventory-management repository: the sequential identifier
allocator, the size-breakdown ledger maintained on cutting records by
POST /manufacturing-orders, the truthiness-guarded PUT update of
manufacturing orders, and the client-side status-change workflow that
creates QR-product records.  All definitions are shallow embeddings of
the TypeScript source; JavaScript numbers that the verified claims
depend on are integers here, and the price fields (JS floats, never
inspected by any verified property) are carried opaquely as integers.
-/

/-! ## JavaScript string and number primitives used by the ID allocator -/

/-- Longest leading run of decimal digits of a character list, as a number;
`none` when the run is empty (JS `parseInt` returning `NaN`). -/
def leadingDigitsVal (cs : List Char) : Option Nat :=
  let ds := cs.takeWhile Char.isDigit
  if ds.isEmpty then none
  else some (ds.foldl (fun a c => 10 * a + (c.toNat - '0'.toNat)) 0)

/-- JS `parseInt(s)` (radix 10): skip leading whitespace, read an optional
sign and then the longest run of decimal digits; `none` models `NaN`.
(The hexadecimal `0x` form of `parseInt` never arises for the identifier
suffixes handled here.) -/
def jsParseInt (s : String) : Option Int :=
  let cs := s.data.dropWhile (fun c => c == ' ' || c == '\t' || c == '\n' || c == '\r')
  match cs with
  | '-' :: rest => (leadingDigitsVal rest).map (fun n => -(n : Int))
  | '+' :: rest => (leadingDigitsVal rest).map (fun n => (n : Int))
  | rest => (leadingDigitsVal rest).map (fun n => (n : Int))

/-- JS `parseInt(s) || 0`: `NaN` is falsy and becomes `0` (a parsed `0` is
also falsy, and `|| 0` leaves it at `0`, the same value). -/
def parseIntOr0 (s : String) : Int :=
  (jsParseInt s).getD 0

/-- Decimal digits of a natural number, accumulator/fuel style so that the
kernel can evaluate it (`fuel ≥ n + 1` always suffices). -/
def natDecDigitsAux : Nat → Nat → List Char → List Char
  | 0, _, acc => acc
  | fuel + 1, n, acc =>
    if n < 10 then Nat.digitChar n :: acc
    else natDecDigitsAux fuel (n / 10) (Nat.digitChar (n % 10) :: acc)

/-- Decimal string of a natural number. -/
def natToDec (n : Nat) : String :=
  String.mk (natDecDigitsAux (n + 1) n [])

/-- JS `Number.prototype.toString()` for the integer-valued numbers that
occur here (`(-4).toString() = "-4"`). -/
def jsNumToString (n : Int) : String :=
  if n < 0 then "-" ++ natToDec (-n).toNat else natToDec n.toNat

/-- JS `s.padStart(4, '0')`: left-pad with `'0'` up to length 4; strings of
length 4 or more are returned unchanged (never truncated). -/
def padStart4 (s : String) : String :=
  if 4 ≤ s.data.length then s
  else String.mk (List.replicate (4 - s.data.length) '0') ++ s

/-- JS `s.startsWith(p)`. -/
def jsStartsWith (s p : String) : Bool :=
  p.data.isPrefixOf s.data

/-- JS `s.replace(p, '')` as it is used by the allocator: it removes the
first occurrence of `p`, and every string it is applied to has passed the
`startsWith(p)` filter, so the removed occurrence is the leading one;
strings not containing `p` at the front are returned unchanged, matching
`replace` when there is no earlier occurrence. -/
def stripLeading (p s : String) : String :=
  if jsStartsWith s p then String.mk (s.data.drop p.data.length) else s

/-! ## The identifier allocator

`finalManufacturingId` generation in `POST /manufacturing-orders`
(src/unnamed/part_004, three copies) and `generateManufacturingId` in the
Manufacturing page (src/unnamed/part_007) run the same pipeline, with
prefixes `MFG` resp. `MAN`: filter the existing identifiers to those that
are truthy and start with the prefix, strip the prefix, `parseInt(..) || 0`,
take `Math.max(...)` when the list is non-empty (else 0), add 1, and format
with `padStart(4, '0')`. -/

/-- The parsed numeric suffixes of the existing identifiers that pass the
prefix filter (`o.manufacturingId && o.manufacturingId.startsWith(p)`). -/
def suffixVals (p : String) (existing : List String) : List Int :=
  (existing.filter (fun s => (!(s == "")) && jsStartsWith s p)).map
    (fun s => parseIntOr0 (stripLeading p s))

/-- The sequential-identifier allocator. -/
def allocateId (p : String) (existing : List String) : String :=
  let ids := suffixVals p existing
  let maxNum : Int := match ids with
    | [] => 0
    | x :: xs => xs.foldl max x
  p ++ padStart4 (jsNumToString (maxNum + 1))

/-- Whether a string matches `^p\d{4}$`: the prefix followed by exactly
four decimal digits. -/
def matchesPrefix4Digits (p r : String) : Bool :=
  jsStartsWith r p
    && (r.data.drop p.data.length).length == 4
    && (r.data.drop p.data.length).all Char.isDigit

/-! ## Data model

Shallow embedding of the Mongoose documents.  `CuttingRec` follows
`src/server/src/models/CuttingRecord.ts`; `MfgOrder` follows the fields
used by the first `POST /manufacturing-orders` implementation
(src/unnamed/part_004, lines 32-124) and the Manufacturing pages.
`docId` models the MongoDB `_id`.  The price fields (`pricePerPiece`,
`totalAmount`) are JS floats in the source; no verified claim computes
with them, so they are carried opaquely as integers. -/

structure SizeQty where
  size : String
  quantity : Int
  deriving DecidableEq, Repr

structure CuttingRec where
  id : String
  fabricType : String
  fabricColor : String
  productName : String
  piecesCount : Int
  pieceLength : Int
  pieceWidth : Int
  totalSquareMetersUsed : Int
  sizeType : String
  sizeBreakdown : List SizeQty
  cuttingMaster : String
  tailorItemPerPiece : Int
  date : String
  deriving DecidableEq, Repr

structure MfgOrder where
  docId : String
  manufacturingId : String
  cuttingId : String
  fabricType : String
  fabricColor : String
  productName : String
  quantity : Int
  size : String
  tailorName : String
  pricePerPiece : Int
  totalAmount : Int
  status : String
  deriving DecidableEq, Repr

/-- A QR product record, with the fields posted by the client on the
`Completed` transition (src/client/src/pages/ManufacturingInventory.tsx). -/
structure QRProduct where
  productId : String
  manufacturingId : String
  productName : String
  color : String
  size : String
  quantity : Int
  tailorName : String
  generatedDate : String
  cuttingId : String
  notes : String
  deriving DecidableEq, Repr

/-- The document store: the three collections the workflow touches. -/
structure DB where
  cuttingRecords : List CuttingRec
  orders : List MfgOrder
  qrProducts : List QRProduct
  deriving DecidableEq, Repr

/-- Replace the first element satisfying `p` (Mongoose `document.save()`
persists the one fetched document; `findOne`/`findById` return the first
match, so saving writes back to that first match). -/
def replaceFirstWhere (p : α → Bool) (x : α) : List α → List α
  | [] => []
  | y :: ys => if p y then x :: ys else y :: replaceFirstWhere p x ys

/-! ## POST /manufacturing-orders

The request body.  JSON strings that are absent are modelled as `""`
(JS `undefined` and `''` are both falsy, and the route only ever tests
these fields for truthiness).  `quantity` is a JSON number; `0` is its
only falsy value, and `parseInt` of an integer-valued number is the
number itself. -/

structure CreateReq where
  manufacturingId : String
  cuttingId : String
  fabricType : String
  fabricColor : String
  productName : String
  quantity : Int
  size : String
  tailorName : String
  pricePerPiece : Int
  totalAmount : Int
  status : String
  deriving DecidableEq, Repr

inductive CreateResult where
  /-- 201: order created. -/
  | created (o : MfgOrder)
  /-- 400: `Missing required fields`. -/
  | missingFields
  /-- 404: `Cutting record not found`. -/
  | cuttingNotFound
  /-- 400: `Not enough quantity for size _. Available: _, Requested: _`. -/
  | insufficient (size : String) (available requested : Int)
  deriving DecidableEq, Repr

/-- First implementation of `POST /manufacturing-orders`
(src/unnamed/part_004, lines 32-124): validate required fields, find the
cutting record, check the size-breakdown availability, allocate the
manufacturing id when none was supplied, save the order, then decrement
the matching size-breakdown entries and save the cutting record (zero
quantities are kept "to show in cutting inventory").  `newDocId` is the
`_id` Mongo assigns to the inserted order. -/
def createOrderV1 (db : DB) (req : CreateReq) (newDocId : String) :
    DB × CreateResult :=
  if req.cuttingId == "" || req.productName == "" || req.quantity == 0
      || req.size == "" || req.tailorName == "" || req.fabricType == ""
      || req.fabricColor == "" then
    (db, .missingFields)
  else
    match db.cuttingRecords.find? (fun r => r.id == req.cuttingId) with
    | none => (db, .cuttingNotFound)
    | some cr =>
      match cr.sizeBreakdown.find? (fun sb => sb.size == req.size) with
      | none => (db, .insufficient req.size 0 req.quantity)
      | some sizeItem =>
        if sizeItem.quantity < req.quantity then
          (db, .insufficient req.size sizeItem.quantity req.quantity)
        else
          let finalManufacturingId :=
            if req.manufacturingId == "" then
              allocateId "MFG" (db.orders.map (fun o => o.manufacturingId))
            else req.manufacturingId
          let o : MfgOrder :=
            { docId := newDocId
              manufacturingId := finalManufacturingId
              cuttingId := req.cuttingId
              fabricType := req.fabricType
              fabricColor := req.fabricColor
              productName := req.productName
              quantity := req.quantity
              size := req.size
              tailorName := req.tailorName
              pricePerPiece := req.pricePerPiece
              totalAmount := req.totalAmount
              status := if req.status == "" then "Pending" else req.status }
          let updatedSizeBreakdown := cr.sizeBreakdown.map (fun sb =>
            if sb.size == req.size then
              { size := sb.size, quantity := sb.quantity - req.quantity }
            else sb)
          let cr' := { cr with sizeBreakdown := updatedSizeBreakdown }
          ({ cuttingRecords :=
               replaceFirstWhere (fun r => r.id == cr.id) cr' db.cuttingRecords
             orders := db.orders ++ [o]
             qrProducts := db.qrProducts },
           .created o)

/-- Second implementation of `POST /manufacturing-orders`
(src/unnamed/part_004, lines 214-286): the cutting record must exist but
its quantities are deliberately neither checked nor updated ("We do NOT
check or update cutting record quantities"). -/
def createOrderV2 (db : DB) (req : CreateReq) (newDocId : String) :
    DB × CreateResult :=
  if req.cuttingId == "" || req.productName == "" || req.quantity == 0
      || req.size == "" || req.tailorName == "" || req.fabricType == ""
      || req.fabricColor == "" then
    (db, .missingFields)
  else
    match db.cuttingRecords.find? (fun r => r.id == req.cuttingId) with
    | none => (db, .cuttingNotFound)
    | some _ =>
      let finalManufacturingId :=
        if req.manufacturingId == "" then
          allocateId "MFG" (db.orders.map (fun o => o.manufacturingId))
        else req.manufacturingId
      let o : MfgOrder :=
        { docId := newDocId
          manufacturingId := finalManufacturingId
          cuttingId := req.cuttingId
          fabricType := req.fabricType
          fabricColor := req.fabricColor
          productName := req.productName
          quantity := req.quantity
          size := req.size
          tailorName := req.tailorName
          pricePerPiece := req.pricePerPiece
          totalAmount := req.totalAmount
          status := if req.status == "" then "Pending" else req.status }
      ({ db with orders := db.orders ++ [o] }, .created o)

/-! ## PUT /manufacturing-orders/:id -/

/-- The PUT body of the first implementation (src/unnamed/part_004,
lines 127-166; the second implementation, lines 289-340, differs only by
`console.log` calls).  `none` models a field absent from the JSON body
(JS `undefined`). -/
structure UpdateReq where
  fabricType : Option String
  fabricColor : Option String
  productName : Option String
  quantity : Option Int
  size : Option String
  tailorName : Option String
  pricePerPiece : Option Int
  totalAmount : Option Int
  status : Option String
  deriving DecidableEq, Repr

/-- `if (field) target = field` for a string field: a supplied falsy value
(`''`) is silently skipped. -/
def updGuardedStr (cur : String) (field : Option String) : String :=
  match field with
  | some v => if v == "" then cur else v
  | none => cur

/-- `if (field) target = parseInt(field)` for the number field: `0` is
falsy and silently skipped. -/
def updGuardedNum (cur : Int) (field : Option Int) : Int :=
  match field with
  | some v => if v == 0 then cur else v
  | none => cur

/-- `if (field !== undefined) target = parseFloat(field)`: any supplied
value, falsy or not, is written. -/
def updDefinedNum (cur : Int) (field : Option Int) : Int :=
  match field with
  | some v => v
  | none => cur

/-- The in-memory field merge of `PUT /manufacturing-orders/:id`
(first implementation, src/unnamed/part_004 lines 146-155). -/
def applyUpdateV1 (o : MfgOrder) (r : UpdateReq) : MfgOrder :=
  { o with
    fabricType := updGuardedStr o.fabricType r.fabricType
    fabricColor := updGuardedStr o.fabricColor r.fabricColor
    productName := updGuardedStr o.productName r.productName
    quantity := updGuardedNum o.quantity r.quantity
    size := updGuardedStr o.size r.size
    tailorName := updGuardedStr o.tailorName r.tailorName
    pricePerPiece := updDefinedNum o.pricePerPiece r.pricePerPiece
    totalAmount := updDefinedNum o.totalAmount r.totalAmount
    status := updGuardedStr o.status r.status }

/-- Modelled from the spec: the `ManufacturingOrder` Mongoose schema is not
among the sources (only `CuttingRecord.ts` is).  Per the spec (§3 data
model, §4.3 failure semantics: "Status values outside the enumerated set
should be rejected at the boundary (schema-level enum validation)"), the
schema declares an enum validator on `status` over
`Pending / Completed / QR Deleted / deleted`, and `save()` fails with a
validation error, persisting nothing, for any other value. -/
def validOrderStatus (s : String) : Bool :=
  s == "Pending" || s == "Completed" || s == "QR Deleted" || s == "deleted"

inductive UpdateResult where
  /-- 200: order updated. -/
  | updated (o : MfgOrder)
  /-- 404: `Manufacturing order not found`. -/
  | notFound
  /-- `save()` failed schema validation; the route's catch answers 500 and
  the stored document is unchanged. -/
  | validationFailed
  deriving DecidableEq, Repr

/-- `PUT /manufacturing-orders/:id`: find the order by `_id`, merge the
supplied fields, and persist through the schema-validating `save()`. -/
def updateOrderV1 (db : DB) (docId : String) (r : UpdateReq) :
    DB × UpdateResult :=
  match db.orders.find? (fun o => o.docId == docId) with
  | none => (db, .notFound)
  | some o =>
    let o' := applyUpdateV1 o r
    if validOrderStatus o'.status then
      ({ db with
         orders := replaceFirstWhere (fun x => x.docId == docId) o' db.orders },
       .updated o')
    else (db, .validationFailed)

/-! ## The client status-change workflow -/

/-- The QR-product payload the client builds from the manufacturing order
on the `Completed` transition (`qrProductData`,
src/client/src/pages/ManufacturingInventory.tsx): `productId` and
`manufacturingId` are the order's `manufacturingId`, `color` is the
order's `fabricColor`, `generatedDate` is the current ISO date and the
note records the locale date. -/
def qrFromRecord (record : MfgOrder) (today todayLocale : String) : QRProduct :=
  { productId := record.manufacturingId
    manufacturingId := record.manufacturingId
    productName := record.productName
    color := record.fabricColor
    size := record.size
    quantity := record.quantity
    tailorName := record.tailorName
    generatedDate := today
    cuttingId := record.cuttingId
    notes := "Completed on " ++ todayLocale }

/-- Modelled from the spec: the `qr-products` route implementation is not
among the sources (it is only mounted in `src/server/src/routes/index.ts`).
Per the spec (§6: the store provides "insert-one for QR-record creation"),
`POST /qr-products` inserts the posted record into the collection. -/
def postQRProduct (db : DB) (p : QRProduct) : DB :=
  { db with qrProducts := db.qrProducts ++ [p] }

/-- A PUT body carrying only `status` (the client sends
`JSON.stringify({ status: newStatus })`). -/
def statusOnlyReq (s : String) : UpdateReq :=
  { fabricType := none, fabricColor := none, productName := none
    quantity := none, size := none, tailorName := none
    pricePerPiece := none, totalAmount := none, status := some s }

inductive StatusChangeResult where
  | ok
  /-- The PUT failed; the client alerts and stops. -/
  | updateFailed
  deriving DecidableEq, Repr

/-- `handleStatusChange` of the first ManufacturingInventory page variant
(src/client/src/pages/ManufacturingInventory.tsx, lines 117-173): PUT the
new status; if that succeeded and the new status is `Completed`, POST one
QR product built from the order. -/
def handleStatusChangeV1 (db : DB) (record : MfgOrder) (newStatus : String)
    (today todayLocale : String) : DB × StatusChangeResult :=
  match updateOrderV1 db record.docId (statusOnlyReq newStatus) with
  | (db1, .updated _) =>
    if newStatus == "Completed" then
      (postQRProduct db1 (qrFromRecord record today todayLocale), .ok)
    else (db1, .ok)
  | (db1, _) => (db1, .updateFailed)

/-- `handleStatusChange` of the second ManufacturingInventory page variant
(src/client/src/pages/ManufacturingInventory.tsx, lines 477-541): same
PUT-then-maybe-POST flow; the `QR Deleted` branch only shows an alert and
performs no further store operation. -/
def handleStatusChangeV2 (db : DB) (record : MfgOrder) (newStatus : String)
    (today todayLocale : String) : DB × StatusChangeResult :=
  match updateOrderV1 db record.docId (statusOnlyReq newStatus) with
  | (db1, .updated _) =>
    if newStatus == "Completed" then
      (postQRProduct db1 (qrFromRecord record today todayLocale), .ok)
    else (db1, .ok)
  | (db1, _) => (db1, .updateFailed)

/-! ## The derived availableSizes read -/

/-- One row of the client's size dropdown. -/
structure SizeQtyRemaining where
  size : String
  quantity : Int
  remainingQuantity : Int
  deriving DecidableEq, Repr

/-- The remaining-quantity computation of `handleCuttingIdBlur`
(src/unnamed/part_007, lines 127-148): for each size-breakdown entry of
the cutting record, subtract the summed quantities of the existing
manufacturing orders that reference this cutting record and this size. -/
def sizeBreakdownWithRemaining (cuttingRecord : CuttingRec)
    (mfgRecords : List MfgOrder) : List SizeQtyRemaining :=
  let existingAssignments :=
    mfgRecords.filter (fun r => r.cuttingId == cuttingRecord.id)
  cuttingRecord.sizeBreakdown.map (fun sb =>
    let assignedForSize :=
      (existingAssignments.filter (fun r => r.size == sb.size)).foldl
        (fun sum r => sum + r.quantity) 0
    { size := sb.size
      quantity := sb.quantity
      remainingQuantity := sb.quantity - assignedForSize })

/-- The size list the UI actually offers (`setAvailableSizes(...)`,
src/unnamed/part_007 line 148): entries with positive remaining quantity. -/
def availableSizesView (cuttingRecord : CuttingRec)
    (mfgRecords : List MfgOrder) : List SizeQtyRemaining :=
  (sizeBreakdownWithRemaining cuttingRecord mfgRecords).filter
    (fun s => 0 < s.remainingQuantity)

/-! ## Folding creation requests over the store -/

/-- The store after one `POST /manufacturing-orders` request handled by the
first implementation (the assigned `_id` plays no role in the route
logic). -/
def createStepV1 (db : DB) (req : CreateReq) : DB :=
  (createOrderV1 db req "").1

/-- The store after a sequence of creation requests. -/
def runCreatesV1 (db : DB) (reqs : List CreateReq) : DB :=
  reqs.foldl createStepV1 db

/-- The total quantity of the orders referencing cutting record `cid` and
size `s` (the `existingAssignments` / `assignedForSize` computation of
src/unnamed/part_007). -/
def assignedFor (orders : List MfgOrder) (cid s : String) : Int :=
  ((orders.filter (fun r => r.cuttingId == cid)).filter
      (fun r => r.size == s)).foldl (fun sum r => sum + r.quantity) 0

/-- The cutting record as the ledger's own bookkeeping maintains it: the
original record with every size-breakdown entry decremented by the total
quantity assigned against its size. -/
def ledgerRec (R : CuttingRec) (orders : List MfgOrder) : CuttingRec :=
  { R with
    sizeBreakdown := R.sizeBreakdown.map (fun sb =>
      { size := sb.size, quantity := sb.quantity - assignedFor orders R.id sb.size }) }

/-! ## Concrete scenario data (spec §8 scenarios and counterexamples) -/

/-- Cutting record `CUT0001` with `sizeBreakdown = [{M, 10}]` (Scenario A). -/
def cutM10 : CuttingRec :=
  { id := "CUT0001", fabricType := "Cotton", fabricColor := "Blue"
    productName := "Shirt", piecesCount := 10, pieceLength := 1
    pieceWidth := 1, totalSquareMetersUsed := 10, sizeType := "Mixed"
    sizeBreakdown := [{ size := "M", quantity := 10 }]
    cuttingMaster := "Ravi", tailorItemPerPiece := 0, date := "2024-01-01" }

/-- An order-creation request against `CUT0001` for size `M` and quantity
`q`; the manufacturing id is left to the allocator. -/
def reqM (q : Int) : CreateReq :=
  { manufacturingId := "", cuttingId := "CUT0001", fabricType := "Cotton"
    fabricColor := "Blue", productName := "Shirt", quantity := q
    size := "M", tailorName := "Asha", pricePerPiece := 0, totalAmount := 0
    status := "Pending" }

/-- The store holding just `CUT0001`. -/
def dbCutOnly : DB :=
  { cuttingRecords := [cutM10], orders := [], qrProducts := [] }

/-- The order a `reqM q` request creates (the allocator numbers it
`MFG0001` over an empty order collection). -/
def orderM (docId : String) (q : Int) : MfgOrder :=
  { docId := docId, manufacturingId := "MFG0001", cuttingId := "CUT0001"
    fabricType := "Cotton", fabricColor := "Blue", productName := "Shirt"
    quantity := q, size := "M", tailorName := "Asha", pricePerPiece := 0
    totalAmount := 0, status := "Pending" }

/-- A pending order `MFG0001` for 4 pieces of size `M` (Scenario B). -/
def dbPending : DB :=
  { cuttingRecords := [], orders := [orderM "d1" 4], qrProducts := [] }

/-- The same order once completed, together with the QR product generated
for it. -/
def orderCompleted : MfgOrder :=
  { orderM "d1" 4 with status := "Completed" }

def qrOfCompleted : QRProduct :=
  qrFromRecord orderCompleted "2024-01-02" "1/2/2024"

/-- A store holding the completed order and its QR product. -/
def dbWithQr : DB :=
  { cuttingRecords := [], orders := [orderCompleted], qrProducts := [qrOfCompleted] }

/-! ## List helper lemmas -/

theorem le_foldl_max (x : Int) (xs : List Int) : x ≤ xs.foldl max x := by
  induction xs generalizing x with
  | nil => exact le_refl x
  | cons a xs ih => exact le_trans (le_max_left x a) (ih (max x a))

theorem mem_le_foldl_max (x : Int) (xs : List Int) :
    ∀ y ∈ xs, y ≤ xs.foldl max x := by
  induction xs generalizing x with
  | nil => intro y hy; cases hy
  | cons a xs ih =>
    intro y hy
    rcases List.mem_cons.mp hy with rfl | hy'
    · exact le_trans (le_max_right x y) (le_foldl_max _ xs)
    · exact ih (max x a) y hy'

theorem foldl_max_mem (x : Int) (xs : List Int) :
    xs.foldl max x = x ∨ xs.foldl max x ∈ xs := by
  induction xs generalizing x with
  | nil => exact Or.inl rfl
  | cons a xs ih =>
    rcases ih (max x a) with h | h
    · rcases max_choice x a with hm | hm
      · exact Or.inl (by rw [List.foldl_cons, h, hm])
      · exact Or.inr (by rw [List.foldl_cons, h, hm]; exact List.mem_cons_self a xs)
    · exact Or.inr (List.mem_cons_of_mem a h)

theorem find?_decomp {α : Type} {p : α → Bool} {l : List α} {a : α}
    (h : l.find? p = some a) :
    ∃ pre post, l = pre ++ a :: post ∧ (∀ x ∈ pre, p x = false) ∧ p a = true := by
  induction l with
  | nil => cases h
  | cons b l ih =>
    by_cases hb : p b
    · simp only [List.find?, hb] at h
      injection h with h
      subst h
      exact ⟨[], l, rfl, ⟨(by intro x hx; cases hx), hb⟩⟩
    · simp only [Bool.not_eq_true] at hb
      rw [List.find?_cons, hb] at h
      obtain ⟨pre, post, hl, hpre, ha⟩ := ih h
      refine ⟨b :: pre, post, by rw [hl]; rfl, ?_, ha⟩
      intro x hx
      rcases List.mem_cons.mp hx with rfl | hx'
      · exact hb
      · exact hpre x hx'

theorem replaceFirstWhere_append {α : Type} (p : α → Bool) (x a : α)
    (pre post : List α) (hpre : ∀ y ∈ pre, p y = false) (ha : p a = true) :
    replaceFirstWhere p x (pre ++ a :: post) = pre ++ x :: post := by
  induction pre with
  | nil => simp [replaceFirstWhere, ha]
  | cons b pre ih =>
    have hb : p b = false := hpre b (List.mem_cons_self b pre)
    have ih' := ih (fun y hy => hpre y (List.mem_cons_of_mem b hy))
    simp only [List.cons_append, replaceFirstWhere, hb, Bool.false_eq_true,
      if_false]
    show b :: replaceFirstWhere p x (pre ++ a :: post) = b :: (pre ++ x :: post)
    rw [ih']

theorem mem_replaceFirstWhere {α : Type} {p : α → Bool} {x y : α}
    {l : List α} (h : y ∈ replaceFirstWhere p x l) : y = x ∨ y ∈ l := by
  induction l with
  | nil => cases h
  | cons b l ih =>
    by_cases hb : p b
    · simp only [replaceFirstWhere, hb, if_true] at h
      rcases List.mem_cons.mp h with rfl | h'
      · exact Or.inl rfl
      · exact Or.inr (List.mem_cons_of_mem b h')
    · simp only [replaceFirstWhere, hb, if_false] at h
      rcases List.mem_cons.mp h with rfl | h'
      · exact Or.inr (List.mem_cons_self y l)
      · rcases ih h' with h'' | h''
        · exact Or.inl h''
        · exact Or.inr (List.mem_cons_of_mem b h'')

theorem sizes_nodup_unique {l : List SizeQty}
    (h : (l.map (fun sb => sb.size)).Nodup) :
    ∀ a ∈ l, ∀ b ∈ l, a.size = b.size → a = b := by
  induction l with
  | nil => intro a ha; cases ha
  | cons c l ih =>
    simp only [List.map_cons, List.nodup_cons, List.mem_map] at h
    intro a ha b hb hab
    rcases List.mem_cons.mp ha with rfl | ha' <;>
      rcases List.mem_cons.mp hb with rfl | hb'
    · rfl
    · exact absurd ⟨b, hb', hab.symm⟩ h.1
    · exact absurd ⟨a, ha', hab⟩ h.1
    · exact ih h.2 a ha' b hb' hab

/-! ## Decimal-format lemmas -/

theorem data_append (a b : String) : (a ++ b).data = a.data ++ b.data := rfl

theorem digitChar_isDigit : ∀ m : Nat, m < 10 → (Nat.digitChar m).isDigit = true := by decide

theorem natDecDigitsAux_digits :
    ∀ (fuel n : Nat) (acc : List Char), (∀ c ∈ acc, c.isDigit = true) →
      ∀ c ∈ natDecDigitsAux fuel n acc, c.isDigit = true := by
  intro fuel
  induction fuel with
  | zero => intro n acc hacc; exact hacc
  | succ fuel ih =>
    intro n acc hacc c hc
    by_cases hn : n < 10
    · simp only [natDecDigitsAux, hn, if_true] at hc
      rcases List.mem_cons.mp hc with rfl | hc'
      · exact digitChar_isDigit n hn
      · exact hacc c hc'
    · simp only [natDecDigitsAux, hn, if_false] at hc
      refine ih (n / 10) (Nat.digitChar (n % 10) :: acc) ?_ c hc
      intro d hd
      rcases List.mem_cons.mp hd with rfl | hd'
      · exact digitChar_isDigit _ (Nat.mod_lt n (by omega))
      · exact hacc d hd'

theorem natDecDigitsAux_length :
    ∀ (fuel k n : Nat) (acc : List Char), n < 10 ^ k → 1 ≤ k → n < fuel →
      (natDecDigitsAux fuel n acc).length ≤ k + acc.length := by
  intro fuel
  induction fuel with
  | zero => intro k n acc _ _ hfuel; omega
  | succ fuel ih =>
    intro k n acc hk hk1 hfuel
    by_cases hn : n < 10
    · simp only [natDecDigitsAux, hn, if_true, List.length_cons]
      omega
    · simp only [natDecDigitsAux, hn, if_false]
      have hk2 : 2 ≤ k := by
        by_contra hlt
        have : k = 1 := by omega
        subst this
        simp only [pow_one] at hk
        omega
      have hdiv : n / 10 < 10 ^ (k - 1) := by
        have hpow : 10 ^ k = 10 ^ (k - 1) * 10 := by
          conv_lhs => rw [show k = (k - 1) + 1 by omega]
          rw [pow_succ]
        refine (Nat.div_lt_iff_lt_mul (by omega)).mpr ?_
        omega
      have hfuel' : n / 10 < fuel := by
        have := Nat.div_lt_self (by omega : 0 < n) (by omega : 1 < 10)
        omega
      have := ih (k - 1) (n / 10) (Nat.digitChar (n % 10) :: acc) hdiv (by omega) hfuel'
      simp only [List.length_cons] at this
      omega

theorem natToDec_le9999 (n : Nat) (h : n ≤ 9999) :
    (natToDec n).data.length ≤ 4 ∧ ∀ c ∈ (natToDec n).data, c.isDigit = true := by
  constructor
  · have := natDecDigitsAux_length (n + 1) 4 n [] (by omega) (by omega) (by omega)
    simpa [natToDec] using this
  · intro c hc
    exact natDecDigitsAux_digits (n + 1) n [] (by intro d hd; cases hd) c
      (by simpa [natToDec] using hc)

theorem padStart4_digits (s : String) (hlen : s.data.length ≤ 4)
    (hdig : ∀ c ∈ s.data, c.isDigit = true) :
    (padStart4 s).data.length = 4 ∧ ∀ c ∈ (padStart4 s).data, c.isDigit = true := by
  by_cases h4 : 4 ≤ s.data.length
  · have : s.data.length = 4 := by omega
    simp only [padStart4, h4, if_true]
    exact ⟨this, hdig⟩
  · simp only [padStart4, h4, if_false]
    constructor
    · show (List.replicate (4 - s.data.length) '0' ++ s.data).length = 4
      simp only [List.length_append, List.length_replicate]
      omega
    · intro c hc
      replace hc : c ∈ List.replicate (4 - s.data.length) '0' ++ s.data := hc
      rcases List.mem_append.mp hc with hc' | hc'
      · rw [List.eq_of_mem_replicate hc']; decide
      · exact hdig c hc'

theorem matches_of_append4 (p s : String) (hlen : s.data.length = 4)
    (hdig : ∀ c ∈ s.data, c.isDigit = true) :
    matchesPrefix4Digits p (p ++ s) = true := by
  simp only [matchesPrefix4Digits, jsStartsWith, data_append, Bool.and_eq_true]
  refine ⟨⟨?_, ?_⟩, ?_⟩
  · exact List.isPrefixOf_iff_prefix.mpr (List.prefix_append p.data s.data)
  · rw [List.drop_left, hlen]; rfl
  · rw [List.drop_left, List.all_eq_true]
    intro c hc
    exact hdig c hc

theorem jsNumToString_digits4 (n : Int) (h1 : 1 ≤ n) (h2 : n ≤ 9999) :
    (padStart4 (jsNumToString n)).data.length = 4
      ∧ ∀ c ∈ (padStart4 (jsNumToString n)).data, c.isDigit = true := by
  have hneg : ¬n < 0 := by omega
  have htn : n.toNat ≤ 9999 := by omega
  have := natToDec_le9999 n.toNat htn
  refine padStart4_digits _ ?_ ?_
  · simp only [jsNumToString, hneg, if_false]
    exact this.1
  · simp only [jsNumToString, hneg, if_false]
    exact this.2

/-! ## Claims C2 and C7: the identifier allocator -/

/-- Claim C2: for every prefix and set of existing identifiers, the
allocator returns the prefix followed by the zero-padded decimal of
(max numeric suffix among identifiers starting with the prefix) + 1,
where unparseable suffixes count as 0 (`parseInt(..) || 0`); when no
identifier carries the prefix it returns prefix + zeroPad(1), e.g.
`MFG0001`. -/
theorem c2_allocator_monotonicity (p : String) (existing : List String) :
    (suffixVals p existing = [] → allocateId p existing = p ++ "0001")
    ∧ (suffixVals p existing ≠ [] →
        ∃ M, M ∈ suffixVals p existing
          ∧ (∀ v ∈ suffixVals p existing, v ≤ M)
          ∧ allocateId p existing = p ++ padStart4 (jsNumToString (M + 1))) := by
  constructor
  · intro h
    have h1 : padStart4 (jsNumToString ((0 : Int) + 1)) = "0001" := by decide
    simp only [allocateId, h, h1]
  · intro h
    cases hids : suffixVals p existing with
    | nil => exact absurd hids h
    | cons x xs =>
      refine ⟨xs.foldl max x, ?_, ?_, ?_⟩
      · rcases foldl_max_mem x xs with hm | hm
        · rw [hm]; exact List.mem_cons_self x xs
        · exact List.mem_cons_of_mem x hm
      · intro v hv
        rcases List.mem_cons.mp hv with rfl | hv'
        · exact le_foldl_max v xs
        · exact mem_le_foldl_max x xs v hv'
      · simp only [allocateId, hids]

/-- Witness for C2 at Scenario C: existing cutting ids
`CUT0001, CUT0003, CUT0007` yield `CUT0008`. -/
theorem c2_witness :
    suffixVals "CUT" ["CUT0001", "CUT0003", "CUT0007"] = [1, 3, 7]
    ∧ allocateId "CUT" ["CUT0001", "CUT0003", "CUT0007"] = "CUT0008" := by
  refine ⟨by decide, ?_⟩
  obtain ⟨M, hmem, hub, heq⟩ :=
    (c2_allocator_monotonicity "CUT" ["CUT0001", "CUT0003", "CUT0007"]).2
      (by decide)
  have h7 : (7 : Int) ≤ M := hub 7 (by decide)
  have hM : M = 7 := by
    have hs : suffixVals "CUT" ["CUT0001", "CUT0003", "CUT0007"] = [1, 3, 7] := by
      decide
    rw [hs] at hmem
    rcases List.mem_cons.mp hmem with rfl | hmem'
    · omega
    · rcases List.mem_cons.mp hmem' with rfl | hmem'' 
      · omega
      · rcases List.mem_cons.mp hmem'' with rfl | hmem3
        · rfl
        · cases hmem3
  rw [heq, hM]
  decide

/-- Counterexample to claim C7: with one existing identifier `MFG9999` the
allocator returns `MFG10000`, whose numeric part has five digits, so the
result does not match `^MFG\d{4}$`. -/
theorem c7_counterexample :
    allocateId "MFG" ["MFG9999"] = "MFG10000"
    ∧ matchesPrefix4Digits "MFG" (allocateId "MFG" ["MFG9999"]) = false := by
  decide

/-- Claim C7 as amended: the allocator's result matches `^PREFIX\d{4}$`
whenever every parsed numeric suffix of an existing prefixed identifier
lies between 0 and 9998 (so that the successor still fits in four digits);
`padStart(4, '0')` never truncates, so larger or negative suffix values
produce a numeric part longer than four digits. -/
theorem c7_format_amended (p : String) (existing : List String)
    (h : ∀ v ∈ suffixVals p existing, 0 ≤ v ∧ v ≤ 9998) :
    matchesPrefix4Digits p (allocateId p existing) = true := by
  cases hids : suffixVals p existing with
  | nil =>
    simp only [allocateId, hids]
    have hd := jsNumToString_digits4 ((0 : Int) + 1) (by omega) (by omega)
    exact matches_of_append4 p _ hd.1 hd.2
  | cons x xs =>
    have hmem : xs.foldl max x ∈ x :: xs := by
      rcases foldl_max_mem x xs with hm | hm
      · rw [hm]; exact List.mem_cons_self x xs
      · exact List.mem_cons_of_mem x hm
    rw [hids] at h
    have hb := h _ hmem
    simp only [allocateId, hids]
    have hd := jsNumToString_digits4 (xs.foldl max x + 1) (by omega) (by omega)
    exact matches_of_append4 p _ hd.1 hd.2

/-- Witness for the amended C7 on a set of well-formed identifiers. -/
theorem c7_witness :
    (∀ v ∈ suffixVals "MFG" ["MFG0001", "MFG0003"], 0 ≤ v ∧ v ≤ 9998)
    ∧ matchesPrefix4Digits "MFG" (allocateId "MFG" ["MFG0001", "MFG0003"]) = true :=
  ⟨by decide, c7_format_amended "MFG" ["MFG0001", "MFG0003"] (by decide)⟩

/-! ## Inversion lemmas for the availability-checking create route -/

theorem createOrderV1_not_created {db : DB} {req : CreateReq} {d : String}
    {db' : DB} {r : CreateResult} (h : createOrderV1 db req d = (db', r))
    (hr : ∀ o, r ≠ .created o) : db' = db := by
  unfold createOrderV1 at h
  split at h
  · exact (Prod.mk.injEq _ _ _ _ ▸ h).1.symm
  · split at h
    · exact (Prod.mk.injEq _ _ _ _ ▸ h).1.symm
    · split at h
      · exact (Prod.mk.injEq _ _ _ _ ▸ h).1.symm
      · split at h
        · exact (Prod.mk.injEq _ _ _ _ ▸ h).1.symm
        · exact absurd ((Prod.mk.injEq _ _ _ _ ▸ h).2.symm) (hr _)

theorem createOrderV1_created {db : DB} {req : CreateReq} {d : String}
    {db' : DB} {o : MfgOrder} (h : createOrderV1 db req d = (db', .created o)) :
    ∃ cr it,
      db.cuttingRecords.find? (fun r => r.id == req.cuttingId) = some cr
      ∧ cr.sizeBreakdown.find? (fun sb => sb.size == req.size) = some it
      ∧ req.quantity ≤ it.quantity
      ∧ (cr.id == req.cuttingId) = true
      ∧ o.cuttingId = req.cuttingId ∧ o.size = req.size
      ∧ o.quantity = req.quantity
      ∧ db' = { cuttingRecords :=
                  replaceFirstWhere (fun r => r.id == cr.id)
                    { cr with sizeBreakdown := cr.sizeBreakdown.map (fun sb =>
                        if sb.size == req.size then
                          { size := sb.size, quantity := sb.quantity - req.quantity }
                        else sb) }
                    db.cuttingRecords
                orders := db.orders ++ [o]
                qrProducts := db.qrProducts } := by
  unfold createOrderV1 at h
  split at h
  · exact absurd (Prod.mk.injEq _ _ _ _ ▸ h).2 (by intro hh; cases hh)
  · rename_i hreq
    split at h
    · exact absurd (Prod.mk.injEq _ _ _ _ ▸ h).2 (by intro hh; cases hh)
    · rename_i cr hfind
      split at h
      · exact absurd (Prod.mk.injEq _ _ _ _ ▸ h).2 (by intro hh; cases hh)
      · rename_i it hfind2
        split at h
        · exact absurd (Prod.mk.injEq _ _ _ _ ▸ h).2 (by intro hh; cases hh)
        · rename_i hqty
          have hp : (cr.id == req.cuttingId) = true := by
            have := List.find?_some hfind
            simpa using this
          have hdb := (Prod.mk.injEq _ _ _ _ ▸ h).1
          have ho := (Prod.mk.injEq _ _ _ _ ▸ h).2
          have ho' := (CreateResult.created.injEq _ _ ▸ ho)
          refine ⟨cr, it, hfind, hfind2, by omega, hp, ?_, ?_, ?_, ?_⟩
          · rw [← ho']
          · rw [← ho']
          · rw [← ho']
          · rw [← hdb, ← ho']

/-- Sizes of the breakdown are unchanged by the per-size decrement. -/
theorem decrement_preserves_sizes (bd : List SizeQty) (s : String) (q : Int) :
    (bd.map (fun sb =>
        if sb.size == s then { size := sb.size, quantity := sb.quantity - q }
        else sb)).map (fun sb => sb.size) = bd.map (fun sb => sb.size) := by
  rw [List.map_map]
  refine List.map_congr_left ?_
  intro sb _
  dsimp only [Function.comp]
  split <;> rfl

/-- One create step preserves "pairwise-distinct sizes and non-negative
quantities" for every stored cutting record. -/
theorem createStep_nonneg (db : DB) (req : CreateReq)
    (h : ∀ cr ∈ db.cuttingRecords,
      (cr.sizeBreakdown.map (fun sb => sb.size)).Nodup
        ∧ ∀ sb ∈ cr.sizeBreakdown, 0 ≤ sb.quantity) :
    ∀ cr ∈ (createStepV1 db req).cuttingRecords,
      (cr.sizeBreakdown.map (fun sb => sb.size)).Nodup
        ∧ ∀ sb ∈ cr.sizeBreakdown, 0 ≤ sb.quantity := by
  rcases hres : createOrderV1 db req "" with ⟨db', r⟩
  have hstep : createStepV1 db req = db' := by
    simp [createStepV1, hres]
  rw [hstep]
  match r with
  | .missingFields =>
    rw [createOrderV1_not_created hres (by intro o hh; cases hh)]; exact h
  | .cuttingNotFound =>
    rw [createOrderV1_not_created hres (by intro o hh; cases hh)]; exact h
  | .insufficient s a q =>
    rw [createOrderV1_not_created hres (by intro o hh; cases hh)]; exact h
  | .created o =>
    obtain ⟨cr, it, hfind, hfind2, hle, hp, _, _, _, hdb'⟩ :=
      createOrderV1_created hres
    subst hdb'
    intro c hc
    rcases mem_replaceFirstWhere hc with rfl | hmem
    · have hcr := h cr (List.mem_of_find?_eq_some hfind)
      constructor
      · show ((cr.sizeBreakdown.map (fun sb =>
            if sb.size == req.size then
              { size := sb.size, quantity := sb.quantity - req.quantity }
            else sb)).map (fun sb => sb.size)).Nodup
        rw [decrement_preserves_sizes]
        exact hcr.1
      · intro sb hsb
        rcases List.mem_map.mp hsb with ⟨sb0, hsb0, rfl⟩
        by_cases hs : (sb0.size == req.size) = true
        · have hit := List.mem_of_find?_eq_some hfind2
          have hits : (it.size == req.size) = true := by
            have := List.find?_some hfind2
            simpa using this
          have : sb0 = it := by
            refine sizes_nodup_unique hcr.1 sb0 hsb0 it hit ?_
            rw [eq_of_beq hs, eq_of_beq hits]
          subst this
          simp only [hs, if_true]
          have := hcr.2 sb0 hsb0
          omega
        · simp only [hs, if_false]
          exact hcr.2 sb0 hsb0
    · exact h c hmem

/-- Claim C1 (amended): for the availability-checking implementation of
`POST /manufacturing-orders`: (a) a request whose size has no breakdown
entry, or whose quantity exceeds the entry's remaining quantity, is
rejected (400 validation error), the store — in particular the size
breakdown — is left unchanged, and no order is created; (b) starting from
cutting records whose breakdown entries have pairwise-distinct sizes (the
documented data-model invariant) and non-negative quantities, no sequence
of creation requests ever drives a remaining quantity below zero. -/
theorem c1_reserve_safety :
    (∀ (db : DB) (req : CreateReq) (d : String) (cr : CuttingRec),
      db.cuttingRecords.find? (fun r => r.id == req.cuttingId) = some cr →
      (cr.sizeBreakdown.find? (fun sb => sb.size == req.size) = none
        ∨ ∃ it, cr.sizeBreakdown.find? (fun sb => sb.size == req.size) = some it
            ∧ it.quantity < req.quantity) →
      (createOrderV1 db req d).1 = db
        ∧ ∀ o, (createOrderV1 db req d).2 ≠ .created o)
    ∧ (∀ (db : DB) (reqs : List CreateReq),
        (∀ cr ∈ db.cuttingRecords,
          (cr.sizeBreakdown.map (fun sb => sb.size)).Nodup
            ∧ ∀ sb ∈ cr.sizeBreakdown, 0 ≤ sb.quantity) →
        ∀ cr ∈ (runCreatesV1 db reqs).cuttingRecords,
          ∀ sb ∈ cr.sizeBreakdown, 0 ≤ sb.quantity) := by
  constructor
  · intro db req d cr hfind hbad
    have hnc : ∀ o, (createOrderV1 db req d).2 ≠ .created o := by
      intro o hcreated
      have hres : createOrderV1 db req d = ((createOrderV1 db req d).1, .created o) := by
        rw [← hcreated]
      obtain ⟨cr', it', hfind', hfind2', hle', _, _, _, _, _⟩ :=
        createOrderV1_created hres
      rw [hfind] at hfind'
      have hcr := Option.some.inj hfind'
      subst hcr
      rcases hbad with hnone | ⟨it, hit, hlt⟩
      · rw [hfind2'] at hnone; cases hnone
      · rw [hfind2'] at hit
        injection hit with hit
        subst hit
        omega
    refine ⟨?_, hnc⟩
    have hres : createOrderV1 db req d = ((createOrderV1 db req d).1, (createOrderV1 db req d).2) := rfl
    exact createOrderV1_not_created hres hnc
  · intro db reqs h
    induction reqs generalizing db with
    | nil => intro cr hcr; exact (h cr hcr).2
    | cons req reqs ih =>
      intro cr hcr
      exact ih (createStepV1 db req) (createStep_nonneg db req h) cr hcr

/-- Witness for C1: over `CUT0001` with `[{M, 10}]`, a request for 99
pieces of size `M` is rejected leaving the store unchanged, and the
two-request sequence `M,4` then `M,7` keeps every remaining quantity
non-negative. -/
theorem c1_witness :
    (dbCutOnly.cuttingRecords.find? (fun r => r.id == (reqM 99).cuttingId) = some cutM10)
    ∧ (∃ it, cutM10.sizeBreakdown.find? (fun sb => sb.size == (reqM 99).size) = some it
        ∧ it.quantity < (reqM 99).quantity)
    ∧ ((createOrderV1 dbCutOnly (reqM 99) "d1").1 = dbCutOnly
        ∧ ∀ o, (createOrderV1 dbCutOnly (reqM 99) "d1").2 ≠ .created o)
    ∧ (∀ cr ∈ (runCreatesV1 dbCutOnly [reqM 4, reqM 7]).cuttingRecords,
        ∀ sb ∈ cr.sizeBreakdown, 0 ≤ sb.quantity) :=
  ⟨by decide, by decide,
    c1_reserve_safety.1 dbCutOnly (reqM 99) "d1" cutM10 (by decide)
      (Or.inr (by decide)),
    c1_reserve_safety.2 dbCutOnly [reqM 4, reqM 7] (by decide)⟩

/-- Counterexample to claim C1 as stated: the second implementation of
`POST /manufacturing-orders` performs no availability check — against
`CUT0001` with `[{M, 10}]`, a request for 99 pieces of size `M` is not
rejected: the order is created (and the breakdown is never decremented by
this implementation at all). -/
theorem c1_counterexample :
    (createOrderV2 dbCutOnly (reqM 99) "d1").2 = .created (orderM "d1" 99)
    ∧ (createOrderV2 dbCutOnly (reqM 99) "d1").1.orders = [orderM "d1" 99]
    ∧ (createOrderV2 dbCutOnly (reqM 99) "d1").1.cuttingRecords = [cutM10] := by
  decide

/-- Claim C6: Scenario A. Creating an order for size `M`, quantity 4
against `CUT0001` (`[{M, 10}]`) succeeds and the ledger becomes
`[{M, 6}]`; a second order for quantity 7 fails with the validation error
reporting available 6 against requested 7, and the store is unchanged. -/
theorem c6_scenario_a :
    (createOrderV1 dbCutOnly (reqM 4) "d1").2 = .created (orderM "d1" 4)
    ∧ (createOrderV1 dbCutOnly (reqM 4) "d1").1.cuttingRecords
        = [{ cutM10 with sizeBreakdown := [{ size := "M", quantity := 6 }] }]
    ∧ (createOrderV1 (createOrderV1 dbCutOnly (reqM 4) "d1").1 (reqM 7) "d2").2
        = .insufficient "M" 6 7
    ∧ (createOrderV1 (createOrderV1 dbCutOnly (reqM 4) "d1").1 (reqM 7) "d2").1
        = (createOrderV1 dbCutOnly (reqM 4) "d1").1 := by
  decide

/-! ## Claim C3: the derived read matches the ledger bookkeeping -/

theorem map_sub_zero (bd : List SizeQty) :
    bd.map (fun sb => ({ size := sb.size, quantity := sb.quantity - 0 } : SizeQty)) = bd := by
  have hf : (fun sb : SizeQty =>
      ({ size := sb.size, quantity := sb.quantity - 0 } : SizeQty)) = fun sb => sb := by
    funext sb
    rw [Int.sub_zero]
  rw [hf]
  exact List.map_id' bd

theorem ledgerRec_nil (R : CuttingRec) : ledgerRec R [] = R := by
  show { R with sizeBreakdown := R.sizeBreakdown.map (fun sb =>
    { size := sb.size, quantity := sb.quantity - 0 }) } = R
  rw [map_sub_zero]

theorem assignedFor_append_single (orders : List MfgOrder) (o : MfgOrder)
    (cid s : String) :
    assignedFor (orders ++ [o]) cid s
      = assignedFor orders cid s
        + (if (o.cuttingId == cid) && (o.size == s) then o.quantity else 0) := by
  unfold assignedFor
  by_cases h1 : (o.cuttingId == cid) = true
  · by_cases h2 : (o.size == s) = true
    · simp [List.filter_append, List.foldl_append, h1, h2]
    · simp [List.filter_append, List.foldl_append, h1, h2]
  · simp [List.filter_append, List.foldl_append, h1]

/-- The per-size decrement applied to a ledger breakdown accounts for the
newly appended order. -/
theorem ledger_decrement_step (R : CuttingRec) (orders : List MfgOrder)
    (o : MfgOrder) (req : CreateReq) (hid : R.id = req.cuttingId)
    (hocid : o.cuttingId = req.cuttingId) (hosize : o.size = req.size)
    (hoqty : o.quantity = req.quantity) :
    (R.sizeBreakdown.map (fun sb =>
        ({ size := sb.size,
           quantity := sb.quantity - assignedFor orders R.id sb.size } : SizeQty))).map
      (fun sb =>
        if sb.size == req.size then
          { size := sb.size, quantity := sb.quantity - req.quantity }
        else sb)
    = R.sizeBreakdown.map (fun sb =>
        ({ size := sb.size,
           quantity := sb.quantity - assignedFor (orders ++ [o]) R.id sb.size } : SizeQty)) := by
  rw [List.map_map]
  refine List.map_congr_left ?_
  intro sb _
  dsimp only [Function.comp]
  have hco : (o.cuttingId == R.id) = true := by
    rw [hocid, hid]; exact beq_self_eq_true _
  by_cases hs : (sb.size == req.size) = true
  · have hsz : sb.size = req.size := eq_of_beq hs
    have hos : (o.size == sb.size) = true := by
      rw [hosize, hsz]; exact beq_self_eq_true _
    rw [if_pos hs, assignedFor_append_single]
    simp only [hco, hos, Bool.and_self, if_true, hoqty, SizeQty.mk.injEq,
      Bool.true_and, Bool.false_eq_true, if_false]
    refine ⟨by trivial, by omega⟩
  · have hos : (o.size == sb.size) = false := by
      have h1 : sb.size ≠ req.size := by
        intro hh
        exact hs (by rw [hh]; exact beq_self_eq_true _)
      rw [hosize]
      exact beq_eq_false_iff_ne.mpr (fun hh => h1 hh.symm)
    rw [if_neg (by simp [hs]), assignedFor_append_single]
    simp only [hco, hos, Bool.and_false, Bool.true_and, SizeQty.mk.injEq,
      Bool.false_eq_true, if_false]
    refine ⟨by trivial, by omega⟩

/-- One create step preserves the ledger characterization of the stored
cutting record. -/
theorem createStep_ledger (R : CuttingRec) (db : DB) (req : CreateReq)
    (h : db.cuttingRecords = [ledgerRec R db.orders]) :
    (createStepV1 db req).cuttingRecords
      = [ledgerRec R (createStepV1 db req).orders] := by
  rcases hres : createOrderV1 db req "" with ⟨db', r⟩
  have hstep : createStepV1 db req = db' := by simp [createStepV1, hres]
  rw [hstep]
  match r with
  | .missingFields =>
    rw [createOrderV1_not_created hres (by intro o hh; cases hh)]; exact h
  | .cuttingNotFound =>
    rw [createOrderV1_not_created hres (by intro o hh; cases hh)]; exact h
  | .insufficient s a q =>
    rw [createOrderV1_not_created hres (by intro o hh; cases hh)]; exact h
  | .created o =>
    obtain ⟨cr, it, hfind, hfind2, hle, hp, hocid, hosize, hoqty, hdb'⟩ :=
      createOrderV1_created hres
    rw [h] at hfind
    have hcr : cr = ledgerRec R db.orders := by
      have hmem := List.mem_of_find?_eq_some hfind
      simpa using hmem
    subst hcr
    have hid : R.id = req.cuttingId := eq_of_beq hp
    subst hdb'
    show replaceFirstWhere _ _ db.cuttingRecords
      = [ledgerRec R (db.orders ++ [o])]
    rw [h]
    simp only [replaceFirstWhere, beq_self_eq_true, if_true]
    refine congrArg (fun x => [x]) ?_
    show ({ ledgerRec R db.orders with
        sizeBreakdown := (ledgerRec R db.orders).sizeBreakdown.map (fun sb =>
          if sb.size == req.size then
            { size := sb.size, quantity := sb.quantity - req.quantity }
          else sb) } : CuttingRec)
      = ledgerRec R (db.orders ++ [o])
    show ({ R with
        sizeBreakdown := (R.sizeBreakdown.map (fun sb =>
          ({ size := sb.size,
             quantity := sb.quantity - assignedFor db.orders R.id sb.size } : SizeQty))).map
          (fun sb =>
            if sb.size == req.size then
              { size := sb.size, quantity := sb.quantity - req.quantity }
            else sb) } : CuttingRec)
      = ledgerRec R (db.orders ++ [o])
    rw [ledger_decrement_step R db.orders o req hid hocid hosize hoqty]
    rfl

theorem runCreates_ledger (R : CuttingRec) (reqs : List CreateReq) :
    ∀ db : DB, db.cuttingRecords = [ledgerRec R db.orders] →
      (runCreatesV1 db reqs).cuttingRecords
        = [ledgerRec R (runCreatesV1 db reqs).orders] := by
  induction reqs with
  | nil => intro db h; exact h
  | cons req reqs ih =>
    intro db h
    exact ih (createStepV1 db req) (createStep_ledger R db req h)

/-- The derived read and the ledger record agree pointwise on
(size, remaining quantity) pairs. -/
theorem derived_eq_ledger_pairs (R : CuttingRec) (orders : List MfgOrder) :
    (sizeBreakdownWithRemaining R orders).map (fun e => (e.size, e.remainingQuantity))
      = (ledgerRec R orders).sizeBreakdown.map (fun e => (e.size, e.quantity)) := by
  show ((R.sizeBreakdown.map _).map _ : List (String × Int))
    = (R.sizeBreakdown.map _).map _
  simp only [List.map_map]
  rfl

/-- Claim C3: for every cutting record and every sequence of creation
requests handled by the ledger-maintaining route, the derived
availableSizes read (original per-size quantity minus the summed
quantities of the orders referencing this record and size) coincides with
the remaining quantities the route's own decrement bookkeeping stores in
the record's size breakdown. -/
theorem c3_derived_matches_ledger (R : CuttingRec) (reqs : List CreateReq) :
    ∃ R', (runCreatesV1 { cuttingRecords := [R], orders := [], qrProducts := [] }
              reqs).cuttingRecords = [R']
      ∧ (sizeBreakdownWithRemaining R
            (runCreatesV1 { cuttingRecords := [R], orders := [], qrProducts := [] }
              reqs).orders).map (fun e => (e.size, e.remainingQuantity))
        = R'.sizeBreakdown.map (fun e => (e.size, e.quantity)) := by
  have hinv := runCreates_ledger R reqs
    { cuttingRecords := [R], orders := [], qrProducts := [] }
    (by show [R] = [ledgerRec R []]; rw [ledgerRec_nil])
  exact ⟨_, hinv, derived_eq_ledger_pairs R _⟩

/-! ## Claim C9: frame effect of a successful order creation -/

/-- Claim C9: a successful `POST /manufacturing-orders` (ledger variant)
appends exactly one order, leaves the QR collection alone, rewrites only
the found cutting record (all records before and after it are untouched),
preserves every non-breakdown field of that record, preserves the length
and the sizes of its breakdown, and leaves every breakdown entry whose
size differs from the requested size exactly as it was. -/
theorem c9_create_frame (db : DB) (req : CreateReq) (d : String)
    (cr : CuttingRec) (db' : DB) (o : MfgOrder)
    (hfind : db.cuttingRecords.find? (fun r => r.id == req.cuttingId) = some cr)
    (hres : createOrderV1 db req d = (db', .created o)) :
    db'.orders = db.orders ++ [o]
    ∧ db'.qrProducts = db.qrProducts
    ∧ ∃ pre post cr',
        db.cuttingRecords = pre ++ cr :: post
        ∧ db'.cuttingRecords = pre ++ cr' :: post
        ∧ cr'.id = cr.id ∧ cr'.fabricType = cr.fabricType
        ∧ cr'.fabricColor = cr.fabricColor ∧ cr'.productName = cr.productName
        ∧ cr'.piecesCount = cr.piecesCount ∧ cr'.pieceLength = cr.pieceLength
        ∧ cr'.pieceWidth = cr.pieceWidth
        ∧ cr'.totalSquareMetersUsed = cr.totalSquareMetersUsed
        ∧ cr'.sizeType = cr.sizeType ∧ cr'.cuttingMaster = cr.cuttingMaster
        ∧ cr'.tailorItemPerPiece = cr.tailorItemPerPiece ∧ cr'.date = cr.date
        ∧ cr'.sizeBreakdown.length = cr.sizeBreakdown.length
        ∧ ∀ (i : Nat) (hi : i < cr.sizeBreakdown.length)
            (hi' : i < cr'.sizeBreakdown.length),
            (cr'.sizeBreakdown.get ⟨i, hi'⟩).size
              = (cr.sizeBreakdown.get ⟨i, hi⟩).size
            ∧ ((cr.sizeBreakdown.get ⟨i, hi⟩).size ≠ req.size →
                cr'.sizeBreakdown.get ⟨i, hi'⟩ = cr.sizeBreakdown.get ⟨i, hi⟩) := by
  obtain ⟨cr0, it, hfind0, hfind2, hle, hp, hocid, hosize, hoqty, hdb'⟩ :=
    createOrderV1_created hres
  rw [hfind] at hfind0
  have hcr0 := Option.some.inj hfind0
  subst hcr0
  subst hdb'
  refine ⟨rfl, rfl, ?_⟩
  obtain ⟨pre, post, hl, hpre, hpa⟩ := find?_decomp hfind
  have hcrid : cr.id = req.cuttingId := eq_of_beq hpa
  refine ⟨pre, post,
    { cr with sizeBreakdown := cr.sizeBreakdown.map (fun sb =>
        if sb.size == req.size then
          { size := sb.size, quantity := sb.quantity - req.quantity }
        else sb) }, hl, ?_, rfl, rfl, rfl, rfl, rfl, rfl, rfl, rfl, rfl, rfl,
    rfl, rfl, ?_, ?_⟩
  · show replaceFirstWhere (fun r => r.id == cr.id) _ db.cuttingRecords = _
    rw [hl]
    refine replaceFirstWhere_append _ _ _ _ _ ?_ ?_
    · intro y hy
      rw [hcrid]
      exact hpre y hy
    · rw [hcrid]
      exact beq_self_eq_true _
  · show (cr.sizeBreakdown.map _).length = cr.sizeBreakdown.length
    exact List.length_map _ _
  · intro i hi hi'
    have hget : (cr.sizeBreakdown.map (fun sb =>
        if sb.size == req.size then
          ({ size := sb.size, quantity := sb.quantity - req.quantity } : SizeQty)
        else sb)).get ⟨i, hi'⟩
        = (fun sb =>
            if sb.size == req.size then
              ({ size := sb.size, quantity := sb.quantity - req.quantity } : SizeQty)
            else sb) (cr.sizeBreakdown.get ⟨i, hi⟩) := by
      simp [List.get_eq_getElem, List.getElem_map]
    rw [hget]
    dsimp only
    by_cases hs : ((cr.sizeBreakdown.get ⟨i, hi⟩).size == req.size) = true
    · rw [if_pos hs]
      exact ⟨rfl, fun hne => absurd (eq_of_beq hs) hne⟩
    · rw [if_neg hs]
      exact ⟨rfl, fun _ => rfl⟩

/-- Witness for C9 on the Scenario A store. -/
theorem c9_witness :
    (dbCutOnly.cuttingRecords.find? (fun r => r.id == (reqM 4).cuttingId)
        = some cutM10)
    ∧ (createOrderV1 dbCutOnly (reqM 4) "d1"
        = ((createOrderV1 dbCutOnly (reqM 4) "d1").1, .created (orderM "d1" 4)))
    ∧ (createOrderV1 dbCutOnly (reqM 4) "d1").1.orders
        = dbCutOnly.orders ++ [orderM "d1" 4] :=
  ⟨by decide, by decide,
    (c9_create_frame dbCutOnly (reqM 4) "d1" cutM10
      (createOrderV1 dbCutOnly (reqM 4) "d1").1 (orderM "d1" 4)
      (by decide) (by decide)).1⟩

/-! ## Claims C4, C5, C8, C10: updates and the status-change workflow -/

theorem applyUpdate_statusOnly (o : MfgOrder) (s : String)
    (hs : (s == "") = false) :
    applyUpdateV1 o (statusOnlyReq s) = { o with status := s } := by
  simp [applyUpdateV1, statusOnlyReq, updGuardedStr, updGuardedNum,
    updDefinedNum, hs]

/-- Claim C4: a user-initiated `Pending → Completed` transition succeeds
(the PUT stores `Completed`, which the status schema accepts) and appends
exactly one QR product, populated from the order's `productName`,
`fabricColor` (as `color`), `size`, `quantity`, `tailorName`,
`manufacturingId`, and the current date. -/
theorem c4_complete_creates_qr (db : DB) (o : MfgOrder)
    (today todayLocale : String)
    (hfind : db.orders.find? (fun x => x.docId == o.docId) = some o)
    (hpending : o.status = "Pending") :
    (∃ db1, updateOrderV1 db o.docId (statusOnlyReq "Completed")
        = (db1, .updated { o with status := "Completed" }))
    ∧ (handleStatusChangeV1 db o "Completed" today todayLocale).2 = .ok
    ∧ (handleStatusChangeV1 db o "Completed" today todayLocale).1.qrProducts
        = db.qrProducts ++ [qrFromRecord o today todayLocale]
    ∧ (qrFromRecord o today todayLocale).manufacturingId = o.manufacturingId
    ∧ (qrFromRecord o today todayLocale).productName = o.productName
    ∧ (qrFromRecord o today todayLocale).color = o.fabricColor
    ∧ (qrFromRecord o today todayLocale).size = o.size
    ∧ (qrFromRecord o today todayLocale).quantity = o.quantity
    ∧ (qrFromRecord o today todayLocale).tailorName = o.tailorName
    ∧ (qrFromRecord o today todayLocale).generatedDate = today := by
  have happly : applyUpdateV1 o (statusOnlyReq "Completed")
      = { o with status := "Completed" } :=
    applyUpdate_statusOnly o "Completed" rfl
  have hupd : updateOrderV1 db o.docId (statusOnlyReq "Completed")
      = ({ db with
            orders := replaceFirstWhere (fun x => x.docId == o.docId)
                ({ o with status := "Completed" }) db.orders },
          .updated { o with status := "Completed" }) := by
    unfold updateOrderV1
    rw [hfind]
    simp only [happly]
    rfl
  have hflow : handleStatusChangeV1 db o "Completed" today todayLocale
      = (postQRProduct
          { db with
            orders := replaceFirstWhere (fun x => x.docId == o.docId)
                ({ o with status := "Completed" }) db.orders }
          (qrFromRecord o today todayLocale), .ok) := by
    unfold handleStatusChangeV1
    rw [hupd]
    rfl
  refine ⟨⟨_, hupd⟩, ?_, ?_, rfl, rfl, rfl, rfl, rfl, rfl, rfl⟩
  · rw [hflow]
  · rw [hflow]
    rfl

/-- Witness for C4 at Scenario B: the pending order `MFG0001`
(quantity 4, size `M`) completes and yields exactly the one QR product
built from it. -/
theorem c4_witness :
    (dbPending.orders.find? (fun x => x.docId == (orderM "d1" 4).docId)
        = some (orderM "d1" 4))
    ∧ (orderM "d1" 4).status = "Pending"
    ∧ (handleStatusChangeV1 dbPending (orderM "d1" 4) "Completed"
          "2024-01-02" "1/2/2024").1.qrProducts
        = dbPending.qrProducts
            ++ [qrFromRecord (orderM "d1" 4) "2024-01-02" "1/2/2024"]
    ∧ qrFromRecord (orderM "d1" 4) "2024-01-02" "1/2/2024"
        = { productId := "MFG0001", manufacturingId := "MFG0001"
            productName := "Shirt", color := "Blue", size := "M"
            quantity := 4, tailorName := "Asha", generatedDate := "2024-01-02"
            cuttingId := "CUT0001", notes := "Completed on 1/2/2024" } :=
  ⟨by decide, by decide,
    (c4_complete_creates_qr dbPending (orderM "d1" 4) "2024-01-02" "1/2/2024"
      (by decide) (by decide)).2.2.1,
    by decide⟩

/-- Claim C5 evaluated on the code (the claim is the stated intent; the
code does not implement it): transitioning the completed order `MFG0001`
to `QR Deleted` only rewrites the order's status — the QR product
referencing `MFG0001` is still stored afterwards, not deleted. -/
theorem c5_qr_deleted_keeps_qrproduct :
    (handleStatusChangeV2 dbWithQr orderCompleted "QR Deleted"
        "2024-01-03" "1/3/2024").2 = .ok
    ∧ (handleStatusChangeV2 dbWithQr orderCompleted "QR Deleted"
        "2024-01-03" "1/3/2024").1.qrProducts = [qrOfCompleted]
    ∧ qrOfCompleted.manufacturingId = "MFG0001"
    ∧ (handleStatusChangeV2 dbWithQr orderCompleted "QR Deleted"
        "2024-01-03" "1/3/2024").1.orders
        = [{ orderCompleted with status := "QR Deleted" }] := by
  decide

/-- Claim C8 (against the spec-modelled schema validation): a PUT carrying
a truthy status outside the enumerated set is rejected and the store is
unchanged; consequently stored orders never hold a status outside the
enumerated set. -/
theorem c8_invalid_status_rejected :
    (∀ (db : DB) (docId : String) (r : UpdateReq) (o : MfgOrder) (s : String),
      db.orders.find? (fun x => x.docId == docId) = some o →
      r.status = some s → (s == "") = false → validOrderStatus s = false →
      updateOrderV1 db docId r = (db, .validationFailed))
    ∧ (∀ (db : DB) (docId : String) (r : UpdateReq),
        (∀ o ∈ db.orders, validOrderStatus o.status = true) →
        ∀ o' ∈ (updateOrderV1 db docId r).1.orders,
          validOrderStatus o'.status = true) := by
  constructor
  · intro db docId r o s hfind hrs hsne hinvalid
    have hst : (applyUpdateV1 o r).status = s := by
      show updGuardedStr o.status r.status = s
      rw [hrs]
      simp [updGuardedStr, hsne]
    unfold updateOrderV1
    rw [hfind]
    simp only [hst, hinvalid]
    rfl
  · intro db docId r h o' hmem
    rcases hfind : db.orders.find? (fun x => x.docId == docId) with _ | o
    · unfold updateOrderV1 at hmem
      rw [hfind] at hmem
      exact h o' hmem
    · unfold updateOrderV1 at hmem
      rw [hfind] at hmem
      by_cases hv : validOrderStatus (applyUpdateV1 o r).status = true
      · simp only [hv, if_true] at hmem
        rcases mem_replaceFirstWhere hmem with rfl | hmem'
        · exact hv
        · exact h o' hmem'
      · simp only [hv, if_false] at hmem
        exact h o' hmem
  
/-- Witness for C8: the status value `Bogus` is rejected and nothing is
stored. -/
theorem c8_witness :
    (dbWithQr.orders.find? (fun x => x.docId == "d1") = some orderCompleted)
    ∧ ((statusOnlyReq "Bogus").status = some "Bogus")
    ∧ (("Bogus" == "") = false)
    ∧ (validOrderStatus "Bogus" = false)
    ∧ updateOrderV1 dbWithQr "d1" (statusOnlyReq "Bogus")
        = (dbWithQr, .validationFailed) :=
  ⟨by decide, rfl, by decide, by decide,
    c8_invalid_status_rejected.1 dbWithQr "d1" (statusOnlyReq "Bogus")
      orderCompleted "Bogus" (by decide) rfl (by decide) (by decide)⟩

/-- Claim C10: in the PUT field merge, every truthiness-guarded field
supplied with its falsy value (empty string, or 0 for `quantity`) is
silently ignored, omitted fields are left unchanged, and consequently an
update can never zero `quantity` nor clear `status`. -/
theorem c10_guarded_update (o : MfgOrder) (r : UpdateReq) :
    ((r.fabricType = none ∨ r.fabricType = some "") →
      (applyUpdateV1 o r).fabricType = o.fabricType)
    ∧ ((r.fabricColor = none ∨ r.fabricColor = some "") →
      (applyUpdateV1 o r).fabricColor = o.fabricColor)
    ∧ ((r.productName = none ∨ r.productName = some "") →
      (applyUpdateV1 o r).productName = o.productName)
    ∧ ((r.size = none ∨ r.size = some "") →
      (applyUpdateV1 o r).size = o.size)
    ∧ ((r.tailorName = none ∨ r.tailorName = some "") →
      (applyUpdateV1 o r).tailorName = o.tailorName)
    ∧ ((r.status = none ∨ r.status = some "") →
      (applyUpdateV1 o r).status = o.status)
    ∧ ((r.quantity = none ∨ r.quantity = some 0) →
      (applyUpdateV1 o r).quantity = o.quantity)
    ∧ ((applyUpdateV1 o r).quantity = 0 → o.quantity = 0)
    ∧ ((applyUpdateV1 o r).status = "" → o.status = "") := by
  refine ⟨?_, ?_, ?_, ?_, ?_, ?_, ?_, ?_, ?_⟩
  · rintro (h | h) <;> · show updGuardedStr _ _ = _; rw [h]; simp [updGuardedStr]
  · rintro (h | h) <;> · show updGuardedStr _ _ = _; rw [h]; simp [updGuardedStr]
  · rintro (h | h) <;> · show updGuardedStr _ _ = _; rw [h]; simp [updGuardedStr]
  · rintro (h | h) <;> · show updGuardedStr _ _ = _; rw [h]; simp [updGuardedStr]
  · rintro (h | h) <;> · show updGuardedStr _ _ = _; rw [h]; simp [updGuardedStr]
  · rintro (h | h) <;> · show updGuardedStr _ _ = _; rw [h]; simp [updGuardedStr]
  · rintro (h | h) <;> · show updGuardedNum _ _ = _; rw [h]; simp [updGuardedNum]
  · show updGuardedNum o.quantity r.quantity = 0 → o.quantity = 0
    rcases r.quantity with _ | v
    · exact fun h => h
    · simp only [updGuardedNum]
      by_cases hv : (v == 0) = true
      · simp [hv]
      · simp only [hv, Bool.false_eq_true, if_false]
        intro hh
        exact absurd rfl (hh ▸ hv)
  · show updGuardedStr o.status r.status = "" → o.status = ""
    rcases r.status with _ | s
    · exact fun h => h
    · simp only [updGuardedStr]
      by_cases hs : (s == "") = true
      · simp [hs]
      · simp only [hs, Bool.false_eq_true, if_false]
        intro hh
        exact absurd rfl (hh ▸ hs)

/-- Witness for C10: a PUT carrying `quantity = 0` and `status = ''` (all
other fields omitted) leaves quantity and status unchanged. -/
theorem c10_witness :
    (({ fabricType := none, fabricColor := none, productName := none
        quantity := some 0, size := none, tailorName := none
        pricePerPiece := none, totalAmount := none, status := some "" }
          : UpdateReq).quantity = none
      ∨ ({ fabricType := none, fabricColor := none, productName := none
           quantity := some 0, size := none, tailorName := none
           pricePerPiece := none, totalAmount := none, status := some "" }
             : UpdateReq).quantity = some 0)
    ∧ (applyUpdateV1 orderCompleted
        { fabricType := none, fabricColor := none, productName := none
          quantity := some 0, size := none, tailorName := none
          pricePerPiece := none, totalAmount := none, status := some "" }).quantity
        = orderCompleted.quantity :=
  ⟨Or.inr rfl,
    (c10_guarded_update orderCompleted
      { fabricType := none, fabricColor := none, productName := none
        quantity := some 0, size := none, tailorName := none
        pricePerPiece := none, totalAmount := none,
        status := some "" }).2.2.2.2.2.2.1 (Or.inr rfl)⟩
